import Mathlib

/-!
Shallow embedding of the gym-schedule-ics scraper (src/scraper.py) and proofs
of the specification claims about it.

The extractor operates on an abstract document model: a parsed page either
exposes the schedule container (a sequence of text-bearing elements, each with
its flattened text and its styled child runs) or it does not.  The calendar
builder is embedded with the wall-clock DTSTAMP string and the uuid5 digest
function as explicit parameters: uuid5 models name to str(uuid.uuid5(NAMESPACE_URL, name))
from the Python standard library, and the embedding never depends on its
internal structure, only on it being a function of the name string.
-/

namespace Scraper

/-- Whitespace set used by Python str.strip and the regex class backslash-s
    (ASCII part). -/
def isPySpace (c : Char) : Bool :=
  c = ' ' || c = '\t' || c = '\n' || c = '\r' || c = '\x0b' || c = '\x0c'

/-- Python str.strip(): remove leading and trailing whitespace. -/
def pyStrip (s : String) : String :=
  String.mk (((s.data.dropWhile isPySpace).reverse.dropWhile isPySpace).reverse)

/-- Does the list start with the given needle? (helper for substring tests). -/
def startsWithList : List Char → List Char → Bool
  | [], _ => true
  | _ :: _, [] => false
  | n :: ns, h :: hs => n = h && startsWithList ns hs

/-- Python substring containment: needle occurs somewhere in the haystack. -/
def hasSub (needle : List Char) : List Char → Bool
  | [] => startsWithList needle []
  | c :: cs => startsWithList needle (c :: cs) || hasSub needle cs

/-- Python str.title() helper: the Bool is whether the previous char was
    alphabetic. -/
def pyTitleAux : Bool → List Char → List Char
  | _, [] => []
  | prevAlpha, c :: cs =>
    (if c.isAlpha then (if prevAlpha then c.toLower else c.toUpper) else c)
      :: pyTitleAux c.isAlpha cs

/-- Python str.title(). -/
def pyTitle (s : String) : String := String.mk (pyTitleAux false s.data)

/-- SCHEDULE_URL constant of scraper.py. -/
def SCHEDULE_URL : String := "https://mtolympusgym.us/pages/weekly-schedule"

/-- RED_MARKERS constant of scraper.py (the set literal, in source order). -/
def RED_MARKERS : List String :=
  ["rgb(255, 42, 0)", "rgb(255,42,0)", "#ff2a00", "#FF2A00"]

/-- DAYS constant of scraper.py. -/
def DAYS : List String :=
  ["MONDAY", "TUESDAY", "WEDNESDAY", "THURSDAY", "FRIDAY", "SATURDAY", "SUNDAY"]

/-- Wall-clock time of day (hour, minute); parse_ampm zeroes seconds and
    microseconds, so they are not represented. -/
structure Time where
  hour : Nat
  minute : Nat
  deriving DecidableEq, Repr

/-- ClosedBlock dataclass of scraper.py.  The Python field end is a reserved
    word in Lean and is embedded as endT. -/
structure ClosedBlock where
  day_name : String
  start : Time
  endT : Time
  deriving DecidableEq, Repr

/-- A styled text run (an HTML span): its flattened text and its optional
    inline style attribute. -/
structure Span where
  text : String
  style : Option String
  deriving DecidableEq, Repr

/-- A text-bearing element of the schedule container (a p or div): its
    flattened text and the styled runs it contains. -/
structure Elem where
  text : String
  spans : List Span
  deriving DecidableEq, Repr

/-- An abstract parsed page: either the schedule container (div.rte) with its
    elements in document order, or no container at all. -/
structure Doc where
  rte : Option (List Elem)
  deriving DecidableEq, Repr

/-- Errors the extractor can raise: RuntimeError for a missing container,
    ValueError escaping from datetime.strptime (the payload carries the
    normalized offending token). -/
inductive ExtractError where
  | structureError (msg : String)
  | valueError (token : String)
  deriving DecidableEq, Repr

/-- Outcome of extract_blocks: the block list, or an uncaught exception. -/
inductive ExtractResult where
  | ok (blocks : List ClosedBlock)
  | error (e : ExtractError)
  deriving DecidableEq, Repr

/-- normalize_day of scraper.py: strip, uppercase, strip trailing colons,
    and keep the result only when it is one of DAYS. -/
def normalize_day (s : String) : Option String :=
  let t := String.mk ((((pyStrip s).data.map Char.toUpper).reverse.dropWhile (fun c => c = ':')).reverse)
  if t ∈ DAYS then some t else none

/-- Style normalization used inside style_has_red: lowercase, then delete
    space characters (U+0020 only; Python str.replace removes no other
    whitespace). -/
def normStyle (s : String) : List Char :=
  (s.data.map Char.toLower).filter (fun c => c ≠ ' ')

/-- style_has_red of scraper.py: falsy styles are not red; otherwise each
    marker of RED_MARKERS (lowercased, spaces deleted) is searched in the
    normalized style, and finally the generic color:red declaration. -/
def style_has_red : Option String → Bool
  | none => false
  | some st =>
    if st.data.isEmpty then false
    else
      RED_MARKERS.any (fun m => hasSub (normStyle m) (normStyle st))
        || hasSub ("color:red".data) (normStyle st)

/-- Modelled from the spec (claim C1, amended reading): a style contains a red
    marker when, after lowercasing and deleting space characters, it contains
    the RGB triple, the hex code, or the generic color:red declaration.  This
    is the spec-side characterization to be compared with style_has_red. -/
def specRedMarker : Option String → Bool
  | none => false
  | some st =>
    hasSub ("rgb(255,42,0)".data) (normStyle st)
      || hasSub ("#ff2a00".data) (normStyle st)
      || hasSub ("color:red".data) (normStyle st)

/-- Case-insensitive literal match (re.IGNORECASE): consume the pattern from
    the input, returning the rest of the input. -/
def matchCI : List Char → List Char → Option (List Char)
  | [], s => some s
  | _ :: _, [] => none
  | p :: ps, c :: cs => if p.toLower = c.toLower then matchCI ps cs else none

/-- Tail of the time token of TIME_RANGE_RE after the hour digits: a colon,
    exactly two minute digits, optional whitespace, then am or pm
    (case-insensitive).  Returns the captured group (hour digits passed in,
    plus everything matched here) and the rest of the input. -/
def parseMinuteAmPm (hd : List Char) : List Char → Option (List Char × List Char)
  | m1 :: m2 :: r4 =>
    if m1.isDigit && m2.isDigit then
      let sp := r4.takeWhile isPySpace
      let r5 := r4.dropWhile isPySpace
      match r5 with
      | a :: m :: r6 =>
        if (a.toLower = 'a' || a.toLower = 'p') && m.toLower = 'm' then
          some (hd ++ ':' :: m1 :: m2 :: (sp ++ [a, m]), r6)
        else none
      | _ => none
    else none
  | _ => none

/-- One time token of TIME_RANGE_RE: one or two digits (greedy, with the
    regex backtracking to one digit when no colon follows two), then the
    minute and meridiem part. -/
def parseTimeToken : List Char → Option (List Char × List Char)
  | d1 :: rest1 =>
    if d1.isDigit then
      match rest1 with
      | c2 :: rest2 =>
        if c2.isDigit then
          match rest2 with
          | ':' :: r3 => parseMinuteAmPm [d1, c2] r3
          | _ => none
        else if c2 = ':' then parseMinuteAmPm [d1] rest2
        else none
      | [] => none
    else none
  | [] => none

/-- TIME_RANGE_RE matched at the current position: the literal Training
    (case-insensitive), whitespace, a time token, optional whitespace, a
    dash, optional whitespace, a second time token.  Returns the two captured
    groups. -/
def matchTrainingAt (s : List Char) : Option (List Char × List Char) :=
  match matchCI "Training".data s with
  | none => none
  | some r1 =>
    match r1 with
    | c :: cs =>
      if isPySpace c then
        let r2 := cs.dropWhile isPySpace
        match parseTimeToken r2 with
        | none => none
        | some (g1, r3) =>
          let r4 := r3.dropWhile isPySpace
          match r4 with
          | '-' :: r5 =>
            let r6 := r5.dropWhile isPySpace
            match parseTimeToken r6 with
            | none => none
            | some (g2, _) => some (g1, g2)
          | _ => none
      else none
    | [] => none

/-- TIME_RANGE_RE.search: leftmost match of the pattern anywhere in the
    input, returning the two captured time groups. -/
def searchTR : List Char → Option (List Char × List Char)
  | [] => none
  | c :: cs =>
    match matchTrainingAt (c :: cs) with
    | some g => some g
    | none => searchTR cs

/-- The strptime directive percent-I: an hour 1..12, one or two digits, with
    the alternation 1[0-2], then 0[1-9], then [1-9], as in Python strptime. -/
def parseHour12 : List Char → Option (Nat × List Char)
  | '1' :: c2 :: rest =>
    if c2 = '0' || c2 = '1' || c2 = '2' then
      some (10 + (c2.toNat - '0'.toNat), rest)
    else
      some (1, c2 :: rest)
  | '0' :: c2 :: rest =>
    if '1' ≤ c2 && c2 ≤ '9' then some (c2.toNat - '0'.toNat, rest) else none
  | c :: rest =>
    if '1' ≤ c && c ≤ '9' then some (c.toNat - '0'.toNat, rest) else none
  | [] => none

/-- The strptime directive percent-M: a minute 0..59, two digits [0-5][0-9]
    preferred, falling back to a single digit. -/
def parseMinute : List Char → Option (Nat × List Char)
  | m1 :: m2 :: rest =>
    if ('0' ≤ m1 && m1 ≤ '5') && m2.isDigit then
      some ((m1.toNat - '0'.toNat) * 10 + (m2.toNat - '0'.toNat), rest)
    else if m1.isDigit then some (m1.toNat - '0'.toNat, m2 :: rest)
    else none
  | [m1] => if m1.isDigit then some (m1.toNat - '0'.toNat, []) else none
  | [] => none

/-- datetime.strptime with format percent-I colon percent-M percent-p on an
    already lowercased input, requiring the whole input to be consumed;
    12-hour to 24-hour conversion as in Python (12am is 00, 12pm is 12). -/
def strptime_IMp (t : List Char) : Option Time :=
  match parseHour12 t with
  | none => none
  | some (h, r1) =>
    match r1 with
    | ':' :: r2 =>
      match parseMinute r2 with
      | none => none
      | some (m, r3) =>
        match r3 with
        | 'a' :: 'm' :: [] => some ⟨h % 12, m⟩
        | 'p' :: 'm' :: [] => some ⟨h % 12 + 12, m⟩
        | _ => none
    | _ => none

/-- Normalization performed at the start of parse_ampm: strip, lowercase,
    delete space characters. -/
def pyNormToken (s : String) : List Char :=
  ((pyStrip s).data.map Char.toLower).filter (fun c => c ≠ ' ')

/-- parse_ampm of scraper.py; none models the ValueError raised by strptime
    when the token is not a valid 12-hour clock time. -/
def parse_ampm (s : String) : Option Time := strptime_IMp (pyNormToken s)

/-- Processing of one styled run inside a training-line element (the body of
    the innermost for loop of extract_blocks): returns the blocks appended
    for this run, or the uncaught ValueError. -/
def process_span (day : String) (sp : Span) : ExtractResult :=
  if sp.text.data.isEmpty || !(hasSub "Training".data sp.text.data) then .ok []
  else
    match searchTR sp.text.data with
    | none => .ok []
    | some (g1, g2) =>
      if style_has_red sp.style then
        match parse_ampm (String.mk g1) with
        | none => .error (.valueError (String.mk (pyNormToken (String.mk g1))))
        | some t1 =>
          match parse_ampm (String.mk g2) with
          | none => .error (.valueError (String.mk (pyNormToken (String.mk g2))))
          | some t2 => .ok [⟨day, t1, t2⟩]
      else .ok []

/-- Processing of all styled runs of one element, in order; the first
    uncaught exception aborts. -/
def process_spans (day : String) : List Span → ExtractResult
  | [] => .ok []
  | sp :: sps =>
    match process_span day sp with
    | .error e => .error e
    | .ok bs1 =>
      match process_spans day sps with
      | .error e => .error e
      | .ok bs2 => .ok (bs1 ++ bs2)

/-- One iteration of the element walk of extract_blocks: given the
    current-day cursor and the element, the updated cursor and this element's
    contribution (empty text and headers and unattributed or span-less content
    contribute nothing; a day header moves the cursor). -/
def elem_step (cur : Option String) (e : Elem) : Option String × ExtractResult :=
  if e.text.data.isEmpty then (cur, .ok [])
  else
    match normalize_day e.text with
    | some d => (some d, .ok [])
    | none =>
      match cur with
      | none => (none, .ok [])
      | some day =>
        if e.spans.isEmpty then (some day, .ok [])
        else (some day, process_spans day e.spans)

/-- The element walk of extract_blocks, carrying the current-day cursor; an
    uncaught exception from any element aborts the walk. -/
def extract_loop : List Elem → Option String → ExtractResult
  | [], _ => .ok []
  | e :: rest, cur =>
    match elem_step cur e with
    | (_, .error err) => .error err
    | (cur2, .ok bs1) =>
      match extract_loop rest cur2 with
      | .error err => .error err
      | .ok bs2 => .ok (bs1 ++ bs2)

/-- extract_blocks of scraper.py over the abstract document model. -/
def extract_blocks (doc : Doc) : ExtractResult :=
  match doc.rte with
  | none => .error (.structureError
      "Could not find schedule container (div.rte). Page structure may have changed.")
  | some elems => extract_loop elems none

/-- Character-level single-character replacement, the Python str.replace
    building block used by ics_escape. -/
def replaceChar (c : Char) (r : List Char) (s : List Char) : List Char :=
  s.flatMap (fun x => if x = c then r else [x])

/-- ics_escape of scraper.py: escape backslash, then newline, then comma,
    then semicolon. -/
def ics_escape (s : String) : String :=
  String.mk (replaceChar ';' ['\\', ';']
    (replaceChar ',' ['\\', ',']
      (replaceChar '\n' ['\\', 'n']
        (replaceChar '\\' ['\\', '\\'] s.data))))

/-- A calendar date (year, month, day), as Python datetime.date. -/
structure Date where
  year : Nat
  month : Nat
  day : Nat
  deriving DecidableEq, Repr

/-- Gregorian leap-year rule. -/
def isLeap (y : Nat) : Bool := y % 4 = 0 && (y % 100 ≠ 0 || y % 400 = 0)

/-- Days in a Gregorian month. -/
def daysInMonth (y m : Nat) : Nat :=
  if m = 2 then (if isLeap y then 29 else 28)
  else if m = 4 || m = 6 || m = 9 || m = 11 then 30
  else 31

/-- The calendar successor of a date. -/
def nextDay (d : Date) : Date :=
  if d.day < daysInMonth d.year d.month then ⟨d.year, d.month, d.day + 1⟩
  else if d.month < 12 then ⟨d.year, d.month + 1, 1⟩
  else ⟨d.year + 1, 1, 1⟩

/-- date plus timedelta(days = n) of Python, for valid dates. -/
def addDays (d : Date) : Nat → Date
  | 0 => d
  | n + 1 => nextDay (addDays d n)

/-- Days before the given month in the given year. -/
def daysBeforeMonth (y m : Nat) : Nat :=
  ((List.range (m - 1)).map (fun i => daysInMonth y (i + 1))).foldl (· + ·) 0

/-- Python date.toordinal(): proleptic Gregorian day number, day 1 being
    0001-01-01. -/
def toOrdinal (d : Date) : Nat :=
  365 * (d.year - 1) + (d.year - 1) / 4 - (d.year - 1) / 100 + (d.year - 1) / 400
    + daysBeforeMonth d.year d.month + d.day

/-- Python date.weekday(): 0 is Monday.  Day number 1 (0001-01-01) is a
    Monday, so the weekday is the day number minus one, modulo seven. -/
def weekday (d : Date) : Nat := (toOrdinal d + 6) % 7

/-- Character of one decimal digit (only ever applied to values below ten). -/
def digitChar : Nat → Char
  | 0 => '0'
  | 1 => '1'
  | 2 => '2'
  | 3 => '3'
  | 4 => '4'
  | 5 => '5'
  | 6 => '6'
  | 7 => '7'
  | 8 => '8'
  | _ => '9'

/-- Decimal digits of a natural number, fuel-driven so that it reduces in the
    kernel. -/
def natDigitsAux : Nat → Nat → List Char
  | 0, _ => []
  | fuel + 1, n =>
    if n < 10 then [digitChar n]
    else natDigitsAux fuel (n / 10) ++ [digitChar (n % 10)]

/-- Decimal digits of a natural number. -/
def natDigits (n : Nat) : List Char := natDigitsAux (n + 1) n

/-- Zero-padded decimal rendering, as the strftime and str conversions of
    Python use for dates and times. -/
def pad (w n : Nat) : String :=
  String.mk (List.replicate (w - (natDigits n).length) '0' ++ natDigits n)

/-- Python str(date): the ISO form YYYY-MM-DD. -/
def dateStr (d : Date) : String :=
  pad 4 d.year ++ "-" ++ pad 2 d.month ++ "-" ++ pad 2 d.day

/-- Python str(time) for a time with zero seconds: HH:MM:SS. -/
def timeStr (t : Time) : String :=
  pad 2 t.hour ++ ":" ++ pad 2 t.minute ++ ":00"

/-- format_dt of scraper.py: strftime YYYYMMDDTHHMMSS; seconds are always
    zero after parse_ampm. -/
def format_dt (d : Date) (t : Time) : String :=
  pad 4 d.year ++ pad 2 d.month ++ pad 2 d.day ++ "T"
    ++ pad 2 t.hour ++ pad 2 t.minute ++ "00"

/-- vtimezone_america_new_york of scraper.py: one Python triple-quoted string
    whose internal line separators are bare LF characters. -/
def vtimezone_america_new_york : String :=
  "BEGIN:VTIMEZONE\nTZID:America/New_York\nX-LIC-LOCATION:America/New_York\nBEGIN:DAYLIGHT\nTZOFFSETFROM:-0500\nTZOFFSETTO:-0400\nTZNAME:EDT\nDTSTART:19700308T020000\nRRULE:FREQ=YEARLY;BYMONTH=3;BYDAY=2SU\nEND:DAYLIGHT\nBEGIN:STANDARD\nTZOFFSETFROM:-0400\nTZOFFSETTO:-0500\nTZNAME:EST\nDTSTART:19701101T020000\nRRULE:FREQ=YEARLY;BYMONTH=11;BYDAY=1SU\nEND:STANDARD\nEND:VTIMEZONE\n"

/-- The day_to_offset dictionary of build_ics, built by enumerating DAYS;
    lookup of a missing key models the Python KeyError as none. -/
def dayOffsetAux : List String → Nat → String → Option Nat
  | [], _, _ => none
  | d :: ds, i, s => if s = d then some i else dayOffsetAux ds (i + 1) s

/-- Offset of a weekday name from the week start, Monday = 0. -/
def day_to_offset (s : String) : Option Nat := dayOffsetAux DAYS 0 s

/-- The per-event data computed inside the loop of build_ics, before
    serialization. -/
structure Event where
  eventDate : Date
  startTime : Time
  endTime : Time
  uid : String
  dtstamp : String
  summary : String
  description : String
  deriving DecidableEq, Repr

/-- The loop body of build_ics for one block: resolve the date, derive the
    identifier from the date-start-end name string through the uuid5 digest
    parameter, and record the summary and description.  none models the
    KeyError on an unknown day name. -/
def mkEvent (u5 : String → String) (ws : Date) (now : String) (b : ClosedBlock) :
    Option Event :=
  (day_to_offset b.day_name).map (fun off =>
    let event_date := addDays ws off
    { eventDate := event_date
      startTime := b.start
      endTime := b.endT
      uid := u5 (dateStr event_date ++ "-" ++ timeStr b.start ++ "-" ++ timeStr b.endT)
        ++ "@mtolympusgym.us"
      dtstamp := now
      summary := "Gym Closed (PT) [" ++ pyTitle b.day_name ++ "]"
      description := "Mt. Olympus Open Gym unavailable (red slot). Source: " ++ SCHEDULE_URL })

/-- The serialized VEVENT lines for one event, as appended by build_ics. -/
def vevent_lines (ev : Event) : List String :=
  ["BEGIN:VEVENT",
   "UID:" ++ ev.uid,
   "DTSTAMP:" ++ ev.dtstamp,
   "DTSTART;TZID=America/New_York:" ++ format_dt ev.eventDate ev.startTime,
   "DTEND;TZID=America/New_York:" ++ format_dt ev.eventDate ev.endTime,
   "SUMMARY:" ++ ics_escape ev.summary,
   "DESCRIPTION:" ++ ics_escape ev.description,
   "STATUS:CONFIRMED",
   "TRANSP:OPAQUE",
   "END:VEVENT"]

/-- The envelope header lines of build_ics, the stripped VTIMEZONE string
    being appended as a single element. -/
def calendar_header : List String :=
  ["BEGIN:VCALENDAR",
   "VERSION:2.0",
   "PRODID:-//kmonopoli//mt-olympus-closed//EN",
   "CALSCALE:GREGORIAN",
   "METHOD:PUBLISH",
   pyStrip vtimezone_america_new_york]

/-- All events of a run, in input order; none models the KeyError aborting
    build_ics on the first block with an unknown day name. -/
def build_events (u5 : String → String) (ws : Date) (now : String) :
    List ClosedBlock → Option (List Event)
  | [] => some []
  | b :: bs =>
    match mkEvent u5 ws now b, build_events u5 ws now bs with
    | some e, some es => some (e :: es)
    | _, _ => none

/-- The lines list of build_ics. -/
def build_lines (u5 : String → String) (blocks : List ClosedBlock) (ws : Date)
    (now : String) : Option (List String) :=
  (build_events u5 ws now blocks).map
    (fun evs => calendar_header ++ (evs.map vevent_lines).flatten ++ ["END:VCALENDAR"])

/-- build_ics of scraper.py: the lines joined with CRLF, plus a trailing
    CRLF. -/
def build_ics (u5 : String → String) (blocks : List ClosedBlock) (ws : Date)
    (now : String) : Option String :=
  (build_lines u5 blocks ws now).map
    (fun ls => String.intercalate "\r\n" ls ++ "\r\n")

/-- An event with its creation timestamp blanked, for stating that two runs
    agree on everything but DTSTAMP. -/
def stripStamp (e : Event) : Event := { e with dtstamp := "" }

/-- Minutes since midnight, for duration comparisons. -/
def timeMinutes (t : Time) : Nat := t.hour * 60 + t.minute

/-- Bare line feed detection helper: previous character, remaining input. -/
def bareLFAux : Char → List Char → Bool
  | _, [] => false
  | prev, c :: rest => (c = '\n' && prev ≠ '\r') || bareLFAux c rest

/-- Does the text contain a line feed not preceded by a carriage return? -/
def hasBareLF : List Char → Bool
  | [] => false
  | c :: rest => c = '\n' || bareLFAux c rest

/-- Concrete event used to instantiate the identifier-stability theorem. -/
def evC10 : Event :=
  ⟨⟨2024, 1, 2⟩, ⟨8, 30⟩, ⟨9, 0⟩, "K@mtolympusgym.us", "T",
   "Gym Closed (PT) [Tuesday]",
   "Mt. Olympus Open Gym unavailable (red slot). Source: https://mtolympusgym.us/pages/weekly-schedule"⟩

/-- Concrete document whose one red training span crosses midnight. -/
def doc1145 : Doc :=
  ⟨some [⟨"MONDAY:", []⟩,
         ⟨"Training 11:45pm-12:15am",
          [⟨"Training 11:45pm-12:15am", some "color: #ff2a00"⟩]⟩]⟩

/-- The block extracted from doc1145. -/
def blk1145 : ClosedBlock := ⟨"MONDAY", ⟨23, 45⟩, ⟨0, 15⟩⟩

/-- The event the builder produces for blk1145: both timestamps share the one
    resolved date, with no overnight rollover. -/
def ev1145 (u5 : String → String) (ws : Date) (now : String) : Event :=
  { eventDate := addDays ws 0
    startTime := ⟨23, 45⟩
    endTime := ⟨0, 15⟩
    uid := u5 (dateStr (addDays ws 0) ++ "-" ++ timeStr ⟨23, 45⟩ ++ "-" ++ timeStr ⟨0, 15⟩)
      ++ "@mtolympusgym.us"
    dtstamp := now
    summary := "Gym Closed (PT) [Monday]"
    description := "Mt. Olympus Open Gym unavailable (red slot). Source: " ++ SCHEDULE_URL }

/-- Concrete document with one well-formed red training line, used to
    instantiate the day-name invariant. -/
def docFri : Doc :=
  ⟨some [⟨"FRIDAY", []⟩,
         ⟨"x", [⟨"Training 1:00pm-2:00pm", some "#ff2a00"⟩]⟩]⟩

/-- Concrete document whose first red training line has an unparseable hour
    (13 on a 12-hour clock) and whose second red line is well-formed. -/
def docBadTime : Doc :=
  ⟨some [⟨"MONDAY", []⟩,
         ⟨"a", [⟨"Training 13:00am-2:00pm", some "#ff2a00"⟩]⟩,
         ⟨"b", [⟨"Training 6:00am-7:00am", some "#ff2a00"⟩]⟩]⟩

/-- The lines list of a build over zero blocks. -/
def linesEmptyRun : List String := calendar_header ++ ["END:VCALENDAR"]


/-- Helper: the per-block event with its timestamp blanked does not depend on
    the wall-clock string passed to the builder. -/
theorem mkEvent_stamp_indep (u5 : String → String) (ws : Date) (b : ClosedBlock)
    (now1 now2 : String) :
    (mkEvent u5 ws now1 b).map stripStamp = (mkEvent u5 ws now2 b).map stripStamp := by
  cases h : day_to_offset b.day_name <;> simp [mkEvent, h, stripStamp]

/-- C2: when the schedule container cannot be located, extract_blocks fails
    with the StructureError and returns no blocks. -/
theorem extract_fails_without_container (doc : Doc) (h : doc.rte = none) :
    extract_blocks doc = .error (.structureError
      "Could not find schedule container (div.rte). Page structure may have changed.") := by
  unfold extract_blocks
  rw [h]

/-- Witness for C2 at the concrete container-less document. -/
theorem extract_fails_without_container_witness :
    (Doc.mk none).rte = none ∧ extract_blocks ⟨none⟩ = .error (.structureError
      "Could not find schedule container (div.rte). Page structure may have changed.") :=
  ⟨rfl, extract_fails_without_container ⟨none⟩ rfl⟩

/-- C3: two builds over the same blocks and week start agree on every event
    field except the creation timestamp: blanking DTSTAMP makes the two runs
    produce identical event lists (identical UID, dates, start and end times,
    summaries and descriptions). -/
theorem build_idempotent_modulo_dtstamp (u5 : String → String) (ws : Date)
    (now1 now2 : String) (blocks : List ClosedBlock) :
    (build_events u5 ws now1 blocks).map (List.map stripStamp)
      = (build_events u5 ws now2 blocks).map (List.map stripStamp) := by
  induction blocks with
  | nil => rfl
  | cons b bs ih =>
    have hb := mkEvent_stamp_indep u5 ws b now1 now2
    unfold build_events
    cases h1 : mkEvent u5 ws now1 b <;> cases h2 : mkEvent u5 ws now2 b <;>
        rw [h1, h2] at hb <;>
      cases h3 : build_events u5 ws now1 bs <;> cases h4 : build_events u5 ws now2 bs <;>
        rw [h3, h4] at ih <;> simp_all

/-- C10: the identifier is a function of the resolved event date and the two
    times alone: any two events of one build run agreeing on those three
    components (in particular events coming from duplicate blocks) carry the
    same UID. -/
theorem uid_function_of_date_start_end (u5 : String → String) (ws : Date)
    (now : String) (b1 b2 : ClosedBlock) (e1 e2 : Event)
    (h1 : mkEvent u5 ws now b1 = some e1) (h2 : mkEvent u5 ws now b2 = some e2)
    (hd : e1.eventDate = e2.eventDate) (hs : e1.startTime = e2.startTime)
    (he : e1.endTime = e2.endTime) : e1.uid = e2.uid := by
  rcases hoff1 : day_to_offset b1.day_name with _ | off1 <;>
    rw [mkEvent, hoff1] at h1 <;> simp at h1
  rcases hoff2 : day_to_offset b2.day_name with _ | off2 <;>
    rw [mkEvent, hoff2] at h2 <;> simp at h2
  subst h1
  subst h2
  simp only [Event.eventDate, Event.startTime, Event.endTime, Event.uid] at hd hs he ⊢
  rw [hd, hs, he]

/-- Witness for C10 at a concrete block and event. -/
theorem uid_function_of_date_start_end_witness :
    mkEvent (fun _ => "K") ⟨2024, 1, 1⟩ "T" ⟨"TUESDAY", ⟨8, 30⟩, ⟨9, 0⟩⟩ = some evC10
      ∧ evC10.uid = evC10.uid :=
  ⟨by decide,
   uid_function_of_date_start_end (fun _ => "K") ⟨2024, 1, 1⟩ "T"
     ⟨"TUESDAY", ⟨8, 30⟩, ⟨9, 0⟩⟩ ⟨"TUESDAY", ⟨8, 30⟩, ⟨9, 0⟩⟩ evC10 evC10
     (by decide) (by decide) rfl rfl rfl⟩

set_option maxRecDepth 100000 in
/-- C8: with zero blocks the builder still returns the complete well-formed
    document: the VCALENDAR envelope and the single VTIMEZONE block, with no
    VEVENT record, independent of the week start and the run timestamp. -/
theorem build_empty_blocks (u5 : String → String) (ws : Date) (now : String) :
    build_ics u5 [] ws now = some
      ("BEGIN:VCALENDAR\r\nVERSION:2.0\r\nPRODID:-//kmonopoli//mt-olympus-closed//EN\r\nCALSCALE:GREGORIAN\r\nMETHOD:PUBLISH\r\nBEGIN:VTIMEZONE\nTZID:America/New_York\nX-LIC-LOCATION:America/New_York\nBEGIN:DAYLIGHT\nTZOFFSETFROM:-0500\nTZOFFSETTO:-0400\nTZNAME:EDT\nDTSTART:19700308T020000\nRRULE:FREQ=YEARLY;BYMONTH=3;BYDAY=2SU\nEND:DAYLIGHT\nBEGIN:STANDARD\nTZOFFSETFROM:-0400\nTZOFFSETTO:-0500\nTZNAME:EST\nDTSTART:19701101T020000\nRRULE:FREQ=YEARLY;BYMONTH=11;BYDAY=1SU\nEND:STANDARD\nEND:VTIMEZONE\r\nEND:VCALENDAR\r\n")
      ∧ hasSub "BEGIN:VEVENT".data
        "BEGIN:VCALENDAR\r\nVERSION:2.0\r\nPRODID:-//kmonopoli//mt-olympus-closed//EN\r\nCALSCALE:GREGORIAN\r\nMETHOD:PUBLISH\r\nBEGIN:VTIMEZONE\nTZID:America/New_York\nX-LIC-LOCATION:America/New_York\nBEGIN:DAYLIGHT\nTZOFFSETFROM:-0500\nTZOFFSETTO:-0400\nTZNAME:EDT\nDTSTART:19700308T020000\nRRULE:FREQ=YEARLY;BYMONTH=3;BYDAY=2SU\nEND:DAYLIGHT\nBEGIN:STANDARD\nTZOFFSETFROM:-0400\nTZOFFSETTO:-0500\nTZNAME:EST\nDTSTART:19701101T020000\nRRULE:FREQ=YEARLY;BYMONTH=11;BYDAY=1SU\nEND:STANDARD\nEND:VTIMEZONE\r\nEND:VCALENDAR\r\n".data = false := by
  exact ⟨rfl, by decide⟩

/-- C5: for a WEDNESDAY 06:00-07:00 block and a Monday week start D, the
    builder places the event on date D plus two days with times 06:00 and
    07:00, serialized in the fixed America/New_York zone; and the fixed
    day-to-offset mapping sends Monday through Sunday to 0 through 6. -/
theorem wednesday_block_lands_on_day_three (u5 : String → String) (now : String)
    (D : Date) (hMon : weekday D = 0) :
    (mkEvent u5 D now ⟨"WEDNESDAY", ⟨6, 0⟩, ⟨7, 0⟩⟩).map
        (fun ev => (ev.eventDate, ev.startTime, ev.endTime))
      = some (addDays D 2, ⟨6, 0⟩, ⟨7, 0⟩)
    ∧ (mkEvent u5 D now ⟨"WEDNESDAY", ⟨6, 0⟩, ⟨7, 0⟩⟩).map
        (fun ev => (vevent_lines ev).get? 3)
      = some (some ("DTSTART;TZID=America/New_York:" ++ format_dt (addDays D 2) ⟨6, 0⟩))
    ∧ (mkEvent u5 D now ⟨"WEDNESDAY", ⟨6, 0⟩, ⟨7, 0⟩⟩).map
        (fun ev => (vevent_lines ev).get? 4)
      = some (some ("DTEND;TZID=America/New_York:" ++ format_dt (addDays D 2) ⟨7, 0⟩))
    ∧ day_to_offset "MONDAY" = some 0 ∧ day_to_offset "TUESDAY" = some 1
    ∧ day_to_offset "WEDNESDAY" = some 2 ∧ day_to_offset "THURSDAY" = some 3
    ∧ day_to_offset "FRIDAY" = some 4 ∧ day_to_offset "SATURDAY" = some 5
    ∧ day_to_offset "SUNDAY" = some 6 := by
  have hW : day_to_offset "WEDNESDAY" = some 2 := by decide
  refine ⟨?_, ?_, ?_, by decide, by decide, by decide, by decide, by decide, by decide,
    by decide⟩ <;> simp [mkEvent, hW, vevent_lines]

/-- Witness for C5 at the concrete Monday 2024-01-01. -/
theorem wednesday_block_lands_on_day_three_witness :
    weekday ⟨2024, 1, 1⟩ = 0
    ∧ (mkEvent (fun _ => "") ⟨2024, 1, 1⟩ "N" ⟨"WEDNESDAY", ⟨6, 0⟩, ⟨7, 0⟩⟩).map
        (fun ev => (ev.eventDate, ev.startTime, ev.endTime))
      = some (addDays ⟨2024, 1, 1⟩ 2, ⟨6, 0⟩, ⟨7, 0⟩) :=
  ⟨by decide,
   (wednesday_block_lands_on_day_three (fun _ => "") "N" ⟨2024, 1, 1⟩ (by decide)).1⟩

/-- C6: the overnight text Training 11:45pm-12:15am extracts without error to
    the block 23:45 to 00:15, and the builder combines both times with the
    same resolved date, applying no rollover, so the serialized event has
    end at most start (zero or negative duration). -/
theorem overnight_range_no_rollover (u5 : String → String) (ws : Date) (now : String) :
    extract_blocks doc1145 = .ok [blk1145]
    ∧ mkEvent u5 ws now blk1145 = some (ev1145 u5 ws now)
    ∧ (vevent_lines (ev1145 u5 ws now)).get? 3
      = some ("DTSTART;TZID=America/New_York:" ++ format_dt (addDays ws 0) ⟨23, 45⟩)
    ∧ (vevent_lines (ev1145 u5 ws now)).get? 4
      = some ("DTEND;TZID=America/New_York:" ++ format_dt (addDays ws 0) ⟨0, 15⟩)
    ∧ timeMinutes (ev1145 u5 ws now).endTime ≤ timeMinutes (ev1145 u5 ws now).startTime := by
  have hM : day_to_offset "MONDAY" = some 0 := by decide
  refine ⟨by decide, ?_, ?_, ?_, ?_⟩
  · simp [mkEvent, blk1145, hM, ev1145]
    decide
  · simp [vevent_lines, ev1145]
  · simp [vevent_lines, ev1145]
  · simp only [ev1145, timeMinutes]
    omega

/-- Helper: the allow-list check of style_has_red coincides with the
    three-marker space-insensitive characterization (the two RGB spellings
    normalize to one, as do the two hex spellings). -/
theorem style_has_red_eq_spec (st : Option String) :
    style_has_red st = specRedMarker st := by
  cases st with
  | none => rfl
  | some s =>
    by_cases hs : s.data.isEmpty
    · have hd : s.data = [] := by
        cases h : s.data with
        | nil => rfl
        | cons c cs => rw [h] at hs; simp [List.isEmpty] at hs
      simp [style_has_red, specRedMarker, hs, normStyle, hd, hasSub, startsWithList]
    · have e1 : normStyle "rgb(255, 42, 0)" = "rgb(255,42,0)".data := by decide
      have e2 : normStyle "rgb(255,42,0)" = "rgb(255,42,0)".data := by decide
      have e3 : normStyle "#ff2a00" = "#ff2a00".data := by decide
      have e4 : normStyle "#FF2A00" = "#ff2a00".data := by decide
      simp only [style_has_red, specRedMarker, hs, if_false, RED_MARKERS,
        List.any_cons, List.any_nil, e1, e2, e3, e4, Bool.or_false]
      cases hasSub "rgb(255,42,0)".data (normStyle s) <;>
        cases hasSub "#ff2a00".data (normStyle s) <;>
          cases hasSub "color:red".data (normStyle s) <;> rfl

/-- Helper: a span whose text contains the Training marker has nonempty
    text. -/
theorem text_nonempty_of_hasSub (l : List Char)
    (h : hasSub "Training".data l = true) : l.isEmpty = false := by
  cases hd : l with
  | nil => rw [hd] at h; exact absurd h (by decide)
  | cons c cs => rfl

/-- C1 (amended): a styled run whose text contains the literal Training and
    matches the time-range pattern with parseable times yields exactly one
    ClosedBlock with the current day and the parsed times if and only if its
    style contains a red marker after lowercasing and deleting space
    characters (U+0020 only; other whitespace is not normalized); without
    such a marker the run yields no block. -/
theorem red_span_yields_exactly_one_block (day : String) (sp : Span)
    (g1 g2 : List Char) (t1 t2 : Time)
    (hT : hasSub "Training".data sp.text.data = true)
    (hS : searchTR sp.text.data = some (g1, g2))
    (h1 : parse_ampm (String.mk g1) = some t1)
    (h2 : parse_ampm (String.mk g2) = some t2) :
    (process_span day sp = .ok [⟨day, t1, t2⟩] ↔ specRedMarker sp.style = true)
    ∧ (specRedMarker sp.style = false → process_span day sp = .ok []) := by
  have hne := text_nonempty_of_hasSub sp.text.data hT
  have hred := style_has_red_eq_spec sp.style
  unfold process_span
  rw [hne, hT, hS, hred]
  simp only [Bool.false_or, Bool.not_true, Bool.false_eq_true, if_false]
  cases hspec : specRedMarker sp.style with
  | false =>
    refine ⟨?_, fun _ => ?_⟩ <;> simp
  | true =>
    rw [if_pos rfl, h1, h2]
    simp

/-- Witness for C1 at a concrete red run. -/
theorem red_span_yields_exactly_one_block_witness :
    hasSub "Training".data ("Training 9:00am-10:30am" : String).data = true
    ∧ searchTR ("Training 9:00am-10:30am" : String).data
      = some ("9:00am".data, "10:30am".data)
    ∧ parse_ampm (String.mk "9:00am".data) = some ⟨9, 0⟩
    ∧ parse_ampm (String.mk "10:30am".data) = some ⟨10, 30⟩
    ∧ (process_span "SUNDAY" ⟨"Training 9:00am-10:30am", some "color: rgb(255, 42, 0);"⟩
        = .ok [⟨"SUNDAY", ⟨9, 0⟩, ⟨10, 30⟩⟩]
      ↔ specRedMarker (some "color: rgb(255, 42, 0);") = true) :=
  ⟨by decide, by decide, by decide, by decide,
   (red_span_yields_exactly_one_block "SUNDAY"
     ⟨"Training 9:00am-10:30am", some "color: rgb(255, 42, 0);"⟩
     "9:00am".data "10:30am".data ⟨9, 0⟩ ⟨10, 30⟩
     (by decide) (by decide) (by decide) (by decide)).1⟩

/-- Counterexample to C1 as stated: the style color-colon-tab-red is a
    whitespace variant of the generic color:red declaration (deleting all
    whitespace exposes the marker), yet the code normalizes spaces only, so
    the red-marked training run yields no block. -/
theorem tab_whitespace_variant_of_red_not_matched :
    hasSub "color:red".data
        ((("color:\tred" : String).data.map Char.toLower).filter (fun c => !(isPySpace c)))
      = true
    ∧ style_has_red (some "color:\tred") = false
    ∧ process_span "MONDAY" ⟨"Training 6:00am-7:00am", some "color:\tred"⟩ = .ok []
    ∧ extract_blocks
        ⟨some [⟨"MONDAY", []⟩,
               ⟨"t", [⟨"Training 6:00am-7:00am", some "color:\tred"⟩]⟩]⟩ = .ok [] :=
  ⟨by decide, by decide, by decide, by decide⟩

/-- C4 (amended): a red-styled run matching the structural pattern whose time
    tokens are not valid 12-hour clock times makes process_span raise the
    ValueError, which extract_blocks does not catch: the run is not skipped
    and no block list is returned. -/
theorem bad_time_red_run_aborts (day : String) (sp : Span) (g1 g2 : List Char)
    (hT : hasSub "Training".data sp.text.data = true)
    (hS : searchTR sp.text.data = some (g1, g2))
    (hR : style_has_red sp.style = true)
    (hP : parse_ampm (String.mk g1) = none ∨ parse_ampm (String.mk g2) = none) :
    ∀ bs, process_span day sp ≠ .ok bs := by
  intro bs h
  have hne := text_nonempty_of_hasSub sp.text.data hT
  unfold process_span at h
  rw [hne, hT, hS, hR] at h
  simp only [Bool.false_or, Bool.not_true, Bool.false_eq_true, if_false, if_pos] at h
  rcases hP with hp | hp
  · rw [hp] at h
    exact absurd h (by simp)
  · cases hg1 : parse_ampm (String.mk g1) with
    | none => rw [hg1] at h; exact absurd h (by simp)
    | some t1 => rw [hg1, hp] at h; exact absurd h (by simp)

/-- Witness for C4 at the concrete unparseable hour 13. -/
theorem bad_time_red_run_aborts_witness :
    hasSub "Training".data ("Training 13:00am-2:00pm" : String).data = true
    ∧ searchTR ("Training 13:00am-2:00pm" : String).data
      = some ("13:00am".data, "2:00pm".data)
    ∧ style_has_red (some "#ff2a00") = true
    ∧ parse_ampm (String.mk "13:00am".data) = none
    ∧ process_span "MONDAY" ⟨"Training 13:00am-2:00pm", some "#ff2a00"⟩ ≠ .ok [] :=
  ⟨by decide, by decide, by decide, by decide,
   bad_time_red_run_aborts "MONDAY" ⟨"Training 13:00am-2:00pm", some "#ff2a00"⟩
     "13:00am".data "2:00pm".data (by decide) (by decide) (by decide)
     (Or.inl (by decide)) []⟩

/-- Counterexample to C4 as stated: a document with a red line whose hour
    token is 13 followed by a well-formed red line makes the whole extraction
    abort with the uncaught ValueError, instead of skipping the bad line and
    returning the other line's block. -/
theorem bad_time_line_aborts_whole_run :
    extract_blocks docBadTime = .error (.valueError "13:00am")
    ∧ extract_blocks docBadTime ≠ .ok [⟨"MONDAY", ⟨6, 0⟩, ⟨7, 0⟩⟩] :=
  ⟨by decide, by decide⟩

/-- Helper: a single run contributes either an error, nothing, or exactly one
    block labeled with the current day. -/
theorem process_span_shape (day : String) (sp : Span) :
    (∃ e, process_span day sp = .error e) ∨ process_span day sp = .ok []
      ∨ ∃ t1 t2, process_span day sp = .ok [⟨day, t1, t2⟩] := by
  unfold process_span
  split
  · exact Or.inr (Or.inl rfl)
  · split
    · exact Or.inr (Or.inl rfl)
    · split
      · split
        · exact Or.inl ⟨_, rfl⟩
        · split
          · exact Or.inl ⟨_, rfl⟩
          · exact Or.inr (Or.inr ⟨_, _, rfl⟩)
      · exact Or.inr (Or.inl rfl)

/-- Helper: all blocks produced from one element's runs carry the current
    day. -/
theorem process_spans_day (day : String) (sps : List Span) (bs : List ClosedBlock)
    (h : process_spans day sps = .ok bs) : ∀ b ∈ bs, b.day_name = day := by
  induction sps generalizing bs with
  | nil =>
    unfold process_spans at h
    cases h
    simp
  | cons sp sps ih =>
    unfold process_spans at h
    rcases process_span_shape day sp with ⟨e, he⟩ | he | ⟨t1, t2, he⟩ <;> rw [he] at h
    · cases h
    · cases h2 : process_spans day sps with
      | error e => rw [h2] at h; cases h
      | ok bs2 =>
        rw [h2] at h
        cases h
        simpa using ih bs2 h2
    · cases h2 : process_spans day sps with
      | error e => rw [h2] at h; cases h
      | ok bs2 =>
        rw [h2] at h
        cases h
        intro b hb
        rcases List.mem_cons.mp hb with rfl | hb
        · rfl
        · exact ih bs2 h2 b hb

/-- Helper: normalize_day only ever returns members of DAYS. -/
theorem normalize_day_mem (s d : String) (h : normalize_day s = some d) : d ∈ DAYS := by
  simp only [normalize_day] at h
  split at h
  · cases h
    assumption
  · cases h

/-- Helper: the updated cursor after one element is still absent or a member
    of DAYS. -/
theorem elem_step_cur_days (cur : Option String) (e : Elem)
    (hcur : ∀ d, cur = some d → d ∈ DAYS) :
    ∀ d, (elem_step cur e).1 = some d → d ∈ DAYS := by
  intro d hd
  unfold elem_step at hd
  split at hd
  · exact hcur d hd
  · split at hd
    next d2 hnd =>
      have hdd : d2 = d := by simpa using hd
      subst hdd
      exact normalize_day_mem e.text d2 hnd
    next hnd =>
      split at hd
      next => exact Option.noConfusion hd
      next _ day =>
        split at hd <;>
          · have hdd : day = d := by simpa using hd
            subst hdd
            exact hcur day rfl

/-- Helper: all blocks contributed by one element carry a day name from
    DAYS, when the incoming cursor is absent or valid. -/
theorem elem_step_blocks (cur : Option String) (e : Elem) (bs : List ClosedBlock)
    (hcur : ∀ d, cur = some d → d ∈ DAYS)
    (h : (elem_step cur e).2 = .ok bs) : ∀ b ∈ bs, b.day_name ∈ DAYS := by
  unfold elem_step at h
  split at h
  · cases h
    simp
  · split at h
    · cases h
      simp
    · split at h
      next =>
        cases h
        simp
      next _ day =>
        split at h
        · cases h
          simp
        · intro b hb
          rw [process_spans_day day e.spans bs h b hb]
          exact hcur day rfl

/-- Helper: every block produced by the element walk, started from an absent
    or valid current-day cursor, carries a day name from DAYS. -/
theorem extract_loop_days (elems : List Elem) : ∀ (cur : Option String)
    (bs : List ClosedBlock), (∀ d, cur = some d → d ∈ DAYS) →
    extract_loop elems cur = .ok bs → ∀ b ∈ bs, b.day_name ∈ DAYS := by
  induction elems with
  | nil =>
    intro cur bs _ h
    cases h
    simp
  | cons e rest ih =>
    intro cur bs hcur h
    unfold extract_loop at h
    cases hstep : elem_step cur e with
    | mk cur2 r =>
      rw [hstep] at h
      cases r with
      | error err => cases h
      | ok bs1 =>
        dsimp only at h
        cases h2 : extract_loop rest cur2 with
        | error err => rw [h2] at h; cases h
        | ok bs2 =>
          rw [h2] at h
          cases h
          have hcur2 : ∀ d, cur2 = some d → d ∈ DAYS := by
            have hstep2 := elem_step_cur_days cur e hcur
            rw [hstep] at hstep2
            exact hstep2
          intro b hb
          rcases List.mem_append.mp hb with hb | hb
          · exact elem_step_blocks cur e bs1 hcur (by rw [hstep]) b hb
          · exact ih cur2 bs2 hcur2 h2 b hb

/-- Helper: every member of DAYS has an offset in the builder's mapping. -/
theorem day_to_offset_isSome (d : String) (h : d ∈ DAYS) :
    (day_to_offset d).isSome := by
  fin_cases h <;> decide

/-- Helper: a block list whose day names all lie in DAYS never makes the
    builder's lookup fail. -/
theorem build_events_isSome (u5 : String → String) (ws : Date) (now : String)
    (blocks : List ClosedBlock) (h : ∀ b ∈ blocks, b.day_name ∈ DAYS) :
    (build_events u5 ws now blocks).isSome := by
  induction blocks with
  | nil => rfl
  | cons b bs ih =>
    have hb := day_to_offset_isSome b.day_name (h b (by simp))
    have hbs := ih (fun x hx => h x (by simp [hx]))
    rcases Option.isSome_iff_exists.mp hb with ⟨off, hoff⟩
    rcases Option.isSome_iff_exists.mp hbs with ⟨es, hes⟩
    simp [build_events, mkEvent, hoff, hes]

/-- C9: every block returned by the extractor has a day name among the seven
    entries of DAYS (the current-day cursor is only set from normalize_day),
    so the builder's day-to-offset lookup succeeds on all of them. -/
theorem extractor_days_make_build_total (doc : Doc) (blocks : List ClosedBlock)
    (u5 : String → String) (ws : Date) (now : String)
    (h : extract_blocks doc = .ok blocks) :
    (∀ b ∈ blocks, b.day_name ∈ DAYS) ∧ (build_events u5 ws now blocks).isSome := by
  have hd : ∀ b ∈ blocks, b.day_name ∈ DAYS := by
    unfold extract_blocks at h
    cases hr : doc.rte with
    | none => rw [hr] at h; cases h
    | some elems =>
      rw [hr] at h
      exact extract_loop_days elems none blocks (by intro d hd; cases hd) h
  exact ⟨hd, build_events_isSome u5 ws now blocks hd⟩

/-- Witness for C9 at a concrete document with one red Friday line. -/
theorem extractor_days_make_build_total_witness :
    extract_blocks docFri = .ok [⟨"FRIDAY", ⟨13, 0⟩, ⟨14, 0⟩⟩]
    ∧ ((∀ b ∈ [(⟨"FRIDAY", ⟨13, 0⟩, ⟨14, 0⟩⟩ : ClosedBlock)], b.day_name ∈ DAYS)
      ∧ (build_events (fun _ => "") ⟨2024, 1, 1⟩ "N"
          [⟨"FRIDAY", ⟨13, 0⟩, ⟨14, 0⟩⟩]).isSome) :=
  ⟨by decide,
   extractor_days_make_build_total docFri [⟨"FRIDAY", ⟨13, 0⟩, ⟨14, 0⟩⟩]
     (fun _ => "") ⟨2024, 1, 1⟩ "N" (by decide)⟩

/-- Helper: decimal digit characters are never a line feed. -/
theorem digitChar_ne_lf (m : Nat) : digitChar m ≠ '\n' := by
  match m with
  | 0 => decide
  | 1 => decide
  | 2 => decide
  | 3 => decide
  | 4 => decide
  | 5 => decide
  | 6 => decide
  | 7 => decide
  | 8 => decide
  | n + 9 => exact (show ('9' : Char) ≠ '\n' from by decide)

/-- Helper: the rendered digits of a natural number contain no line feed. -/
theorem natDigitsAux_no_lf (f : Nat) : ∀ n, '\n' ∉ natDigitsAux f n := by
  induction f with
  | zero => intro n h; simp [natDigitsAux] at h
  | succ f ih =>
    intro n h
    unfold natDigitsAux at h
    split at h
    · rcases List.mem_singleton.mp h with h
      exact digitChar_ne_lf n h.symm
    · rcases List.mem_append.mp h with h | h
      · exact ih (n / 10) h
      · rcases List.mem_singleton.mp h with h
        exact digitChar_ne_lf (n % 10) h.symm

/-- Helper: zero-padded numbers contain no line feed. -/
theorem pad_no_lf (w n : Nat) : '\n' ∉ (pad w n).data := by
  intro h
  unfold pad at h
  rcases List.mem_append.mp h with h | h
  · rcases List.eq_of_mem_replicate h with h
    exact absurd h (by decide)
  · exact natDigitsAux_no_lf (n + 1) n h

/-- Helper: serialized date-times contain no line feed. -/
theorem format_dt_no_lf (d : Date) (t : Time) : '\n' ∉ (format_dt d t).data := by
  intro h
  unfold format_dt at h
  simp only [String.data_append, List.mem_append] at h
  rcases h with (((((h | h) | h) | h) | h) | h) | h
  · exact pad_no_lf 4 d.year h
  · exact pad_no_lf 2 d.month h
  · exact pad_no_lf 2 d.day h
  · exact absurd h (by decide)
  · exact pad_no_lf 2 t.hour h
  · exact pad_no_lf 2 t.minute h
  · exact absurd h (by decide)

/-- Helper: characters of a single-character replacement come from the
    replacement list, or from the input and differ from the replaced one. -/
theorem mem_replaceChar (c : Char) (r s : List Char) (x : Char)
    (h : x ∈ replaceChar c r s) : x ∈ r ∨ (x ∈ s ∧ x ≠ c) := by
  induction s with
  | nil => simp [replaceChar] at h
  | cons a as ih =>
    rw [replaceChar, List.flatMap_cons] at h
    rcases List.mem_append.mp h with h1 | h2
    · by_cases hac : a = c
      · rw [if_pos hac] at h1
        exact Or.inl h1
      · rw [if_neg hac] at h1
        have hx : x = a := List.mem_singleton.mp h1
        subst hx
        exact Or.inr ⟨List.mem_cons_self _ _, hac⟩
    · rcases ih h2 with h | ⟨hx, hnc⟩
      · exact Or.inl h
      · exact Or.inr ⟨List.mem_cons_of_mem a hx, hnc⟩

/-- Helper: escaped text never contains a line feed: the escaping turns every
    line feed into a backslash-n pair. -/
theorem ics_escape_no_lf (s : String) : '\n' ∉ (ics_escape s).data := by
  intro h
  rcases mem_replaceChar _ _ _ _ h with h | ⟨h, -⟩
  · exact absurd h (by decide)
  rcases mem_replaceChar _ _ _ _ h with h | ⟨h, -⟩
  · exact absurd h (by decide)
  rcases mem_replaceChar _ _ _ _ h with h | ⟨h, hne⟩
  · exact absurd h (by decide)
  · exact hne rfl

/-- Helper: every event of a build run is the image of some block under
    mkEvent. -/
theorem build_events_mem (u5 : String → String) (ws : Date) (now : String)
    (blocks : List ClosedBlock) (evs : List Event)
    (h : build_events u5 ws now blocks = some evs) :
    ∀ ev ∈ evs, ∃ b, mkEvent u5 ws now b = some ev := by
  induction blocks generalizing evs with
  | nil =>
    unfold build_events at h
    cases h
    simp
  | cons b bs ih =>
    unfold build_events at h
    cases h1 : mkEvent u5 ws now b <;> rw [h1] at h
    · cases h
    · cases h2 : build_events u5 ws now bs <;> rw [h2] at h
      · cases h
      · cases h
        intro ev hev
        rcases List.mem_cons.mp hev with rfl | hev
        · exact ⟨b, h1⟩
        · exact ih _ h2 ev hev

/-- Helper: every line of an event serialized from mkEvent is free of line
    feeds, when the digest outputs and the timestamp are. -/
theorem vevent_lines_no_lf (u5 : String → String) (ws : Date) (now : String)
    (b : ClosedBlock) (ev : Event) (hu : ∀ s, '\n' ∉ (u5 s).data)
    (hn : '\n' ∉ now.data) (hev : mkEvent u5 ws now b = some ev) :
    ∀ l ∈ vevent_lines ev, '\n' ∉ l.data := by
  rcases hoff : day_to_offset b.day_name with _ | off <;> rw [mkEvent, hoff] at hev <;>
    simp at hev
  subst hev
  intro l hl
  simp only [vevent_lines, List.mem_cons, List.not_mem_nil, or_false] at hl
  rcases hl with rfl | rfl | rfl | rfl | rfl | rfl | rfl | rfl | rfl | rfl
  · decide
  · intro h
    simp only [String.data_append] at h
    rcases List.mem_append.mp h with h | h
    · exact absurd h (by decide)
    rcases List.mem_append.mp h with h | h
    · exact hu _ h
    · exact absurd h (by decide)
  · intro h
    simp only [String.data_append] at h
    rcases List.mem_append.mp h with h | h
    · exact absurd h (by decide)
    · exact hn h
  · intro h
    simp only [String.data_append] at h
    rcases List.mem_append.mp h with h | h
    · exact absurd h (by decide)
    · exact format_dt_no_lf _ _ h
  · intro h
    simp only [String.data_append] at h
    rcases List.mem_append.mp h with h | h
    · exact absurd h (by decide)
    · exact format_dt_no_lf _ _ h
  · intro h
    simp only [String.data_append] at h
    rcases List.mem_append.mp h with h | h
    · exact absurd h (by decide)
    · exact ics_escape_no_lf _ h
  · intro h
    simp only [String.data_append] at h
    rcases List.mem_append.mp h with h | h
    · exact absurd h (by decide)
    · exact ics_escape_no_lf _ h
  · decide
  · decide
  · decide

set_option maxRecDepth 40000 in
/-- C7 (amended): the document is the CRLF-join of the builder's lines with a
    trailing CRLF, and every line other than the embedded VTIMEZONE element
    is free of line feeds (given line-feed-free digest outputs and run
    timestamp), but the VTIMEZONE element itself, one joined element,
    contains bare LF separators: its internal lines are not CRLF-terminated,
    so the claim's inclusion of the time-zone lines fails. -/
theorem crlf_join_except_vtimezone (u5 : String → String) (blocks : List ClosedBlock)
    (ws : Date) (now : String) (ls : List String)
    (hu : ∀ s, '\n' ∉ (u5 s).data) (hn : '\n' ∉ now.data)
    (hl : build_lines u5 blocks ws now = some ls) :
    build_ics u5 blocks ws now = some (String.intercalate "\r\n" ls ++ "\r\n")
    ∧ pyStrip vtimezone_america_new_york ∈ ls
    ∧ hasBareLF (pyStrip vtimezone_america_new_york).data = true
    ∧ ∀ l ∈ ls, l ≠ pyStrip vtimezone_america_new_york → '\n' ∉ l.data := by
  have hics : build_ics u5 blocks ws now = some (String.intercalate "\r\n" ls ++ "\r\n") := by
    unfold build_ics
    rw [hl]
    rfl
  unfold build_lines at hl
  cases hev : build_events u5 ws now blocks <;> rw [hev] at hl
  · cases hl
  next evs =>
    rw [Option.map_some'] at hl
    injection hl with hl
    subst hl
    refine ⟨hics, by simp [calendar_header], by decide, ?_⟩
    intro l hl hlne
    rcases List.mem_append.mp hl with hl | hl
    · rcases List.mem_append.mp hl with hl | hl
      · simp only [calendar_header, List.mem_cons, List.not_mem_nil, or_false] at hl
        rcases hl with rfl | rfl | rfl | rfl | rfl | hl
        · decide
        · decide
        · decide
        · decide
        · decide
        · exact absurd hl hlne
      · rcases List.mem_flatten.mp hl with ⟨lsv, hlsv, hlv⟩
        rcases List.mem_map.mp hlsv with ⟨ev, hevm, rfl⟩
        rcases build_events_mem u5 ws now blocks evs hev ev hevm with ⟨b, hb⟩
        exact vevent_lines_no_lf u5 ws now b ev hu hn hb l hlv
    · rcases List.mem_singleton.mp hl with rfl
      decide

/-- Witness for C7 at a concrete zero-block run. -/
theorem crlf_join_except_vtimezone_witness :
    (∀ s, '\n' ∉ ((fun _ : String => "U") s).data)
    ∧ '\n' ∉ ("20240101T000000Z" : String).data
    ∧ build_lines (fun _ => "U") [] ⟨2024, 1, 1⟩ "20240101T000000Z" = some linesEmptyRun
    ∧ build_ics (fun _ => "U") [] ⟨2024, 1, 1⟩ "20240101T000000Z"
      = some (String.intercalate "\r\n" linesEmptyRun ++ "\r\n") :=
  ⟨fun s => by show '\n' ∉ ("U" : String).data; decide,
   by decide, rfl,
   (crlf_join_except_vtimezone (fun _ => "U") [] ⟨2024, 1, 1⟩ "20240101T000000Z"
     linesEmptyRun (fun s => by show '\n' ∉ ("U" : String).data; decide)
     (by decide) rfl).1⟩

set_option maxRecDepth 40000 in
/-- Counterexample to C7 as stated: already the zero-block document contains
    a line feed not preceded by a carriage return (inside the embedded
    VTIMEZONE block), so not every line is CRLF-terminated. -/
theorem vtimezone_internal_lines_bare_lf :
    hasBareLF ((build_ics (fun _ => "") [] ⟨2024, 1, 1⟩ "X").getD "").data = true := by
  decide

end Scraper
